import Mathlib

/-!
Shallow embedding of the ESP32-NetFind firmware (src/main.cpp) together with
proofs of the specification's testable properties.

Modelling conventions:
* A 6-octet hardware address (BSSID) is a structure of six naturals; the code
  only ever compares the first three octets against the configured filter.
* The `std::map<String, int32_t> deviceSignalMap` is modelled as an association
  list `List (String × Int)` with `std::map` operation semantics: `find`
  locates the entry for a key, `insert` is a no-op when the key is already
  present, and iterator assignment (`it->second = v`) overwrites the value in
  place.
* `WiFi.scanNetworks` returns an `int16_t`; the scan collaborator's result is
  a status/count integer together with the indexed record sequence, and the
  scan loop `for (int i = 0; i < scanResults; ++i)` processes the first
  `scanResults` records (none when the status is zero or negative).
* `num_filtered` is a `uint16_t`; its accumulated value is reduced mod 2^16 on
  return.  `std::abs` on the `int32_t` RSSI is integer absolute value.
* Serial diagnostics are modelled as a list of emitted lines.
* Lamp output state is a map from pin number to level (`true` = HIGH); the
  OLED is a buffer of draw calls plus the committed frame, and `disp_count`
  additionally yields the trace of display-driver calls it issues.
-/

namespace NetFind

/-- A full 6-octet hardware (MAC) address as delivered by `WiFi.BSSID`. -/
structure MacAddress where
  o0 : Nat
  o1 : Nat
  o2 : Nat
  o3 : Nat
  o4 : Nat
  o5 : Nat
  deriving DecidableEq, Repr

/-- The three-octet MAC filter (`const uint8_t MAC_FILTER[3]`). -/
structure MacFilter where
  b0 : Nat
  b1 : Nat
  b2 : Nat
  deriving DecidableEq, Repr

/-- One scan-result record: `WiFi.SSID(i)`, `WiFi.RSSI(i)`, `WiFi.BSSID(i)`,
`WiFi.BSSIDstr(i)` for one index `i`. -/
structure DiscoveredNetwork where
  ssid : String
  rssi : Int
  bssid : MacAddress
  bssidStr : String
  deriving DecidableEq, Repr

/-- Result of one `WiFi.scanNetworks` invocation: the `int16_t` status/count
and the record sequence the indexed accessors expose. -/
structure ScanData where
  scanResults : Int
  records : List DiscoveredNetwork
  deriving DecidableEq, Repr

/-- The configured MAC filter from the source: `{0x00, 0x0D, 0x97}`. -/
def MAC_FILTER : MacFilter := ⟨0x00, 0x0D, 0x97⟩

/-- The filter test of line 103:
`BSSID[0] == filter[0] && BSSID[1] == filter[1] && BSSID[2] == filter[2]`. -/
def macMatch (filter : MacFilter) (r : DiscoveredNetwork) : Bool :=
  r.bssid.o0 == filter.b0 && r.bssid.o1 == filter.b1 && r.bssid.o2 == filter.b2

/-- The device registry `std::map<String, int32_t> deviceSignalMap`,
as an association list of key/value entries. -/
abbrev Registry := List (String × Int)

/-- `std::map::find`: the value stored for `key`, if any. -/
def mapFind : Registry → String → Option Int
  | [], _ => none
  | (k, v) :: rest, key => if k = key then some v else mapFind rest key

/-- Iterator assignment `it->second = v`: overwrite the value stored for
`key`, leaving the rest of the map untouched. -/
def mapAssign : Registry → String → Int → Registry
  | [], _, _ => []
  | (k, w) :: rest, key, v =>
      if k = key then (k, v) :: rest else (k, w) :: mapAssign rest key v

/-- `std::map::insert(std::make_pair(key, v))`: inserts a new entry only when
no entry for `key` exists; otherwise it is a no-op. -/
def mapInsert (m : Registry) (key : String) (v : Int) : Registry :=
  match mapFind m key with
  | some _ => m
  | none => m ++ [(key, v)]

/-- The registry update of lines 105-109 for one filter-passing record:
```
it = deviceSignalMap.find(BSSIDstr);
if (it != end() && it->second != std::abs(RSSI)) it->second = std::abs(RSSI);
else deviceSignalMap.insert(make_pair(BSSIDstr, std::abs(RSSI)));
``` -/
def registryUpdate (m : Registry) (key : String) (rssi : Int) : Registry :=
  match mapFind m key with
  | some v => if v ≠ |rssi| then mapAssign m key |rssi| else mapInsert m key |rssi|
  | none => mapInsert m key |rssi|

/-- The body of the scan loop (lines 85-116), processing the records in scan
order: `i` is the loop index (used only for the diagnostic line), and the
result is `(num_filtered, deviceSignalMap, serial lines)`. -/
def processRecords (filter : MacFilter) :
    List DiscoveredNetwork → Nat → Registry → Nat × Registry × List String
  | [], _, m => (0, m, [])
  | r :: rest, i, m =>
      let line := toString (i + 1) ++ ": " ++ r.ssid ++ " - " ++ r.bssidStr ++
        " (" ++ toString r.rssi ++ ")"
      if macMatch filter r then
        let res := processRecords filter rest (i + 1) (registryUpdate m r.bssidStr r.rssi)
        (res.1 + 1, res.2.1, line :: res.2.2)
      else
        let res := processRecords filter rest (i + 1) m
        (res.1, res.2.1, line :: res.2.2)

/-- The records the loop `for (int i = 0; i < scanResults; ++i)` actually
visits: the first `scanResults` records (none for a zero or negative status). -/
def processedRecords (scan : ScanData) : List DiscoveredNetwork :=
  scan.records.take scan.scanResults.toNat

/-- `count_devices` (lines 71-123): scans, filters by MAC prefix, updates the
registry, and returns `(num_filtered, deviceSignalMap, serial lines)`.
The scan result is passed explicitly (the collaborator call), the registry is
explicit state, and the `uint16_t` return is reduced mod 2^16. -/
def count_devices (filter : MacFilter) (scan : ScanData) (m : Registry) :
    Nat × Registry × List String :=
  if scan.scanResults = 0 then
    (0, m, ["No WiFi devices in AP Mode found"])
  else
    let res := processRecords filter (processedRecords scan) 0 m
    (res.1 % 65536, res.2.1,
      ("Found " ++ toString scan.scanResults ++ " devices.") :: res.2.2)

/-- Registry state after a sequence of `count_devices` cycles, as performed by
`loop()` calling `count_devices(MAC_FILTER)` once per cycle. -/
def runCycles (filter : MacFilter) (scans : List ScanData) (m : Registry) : Registry :=
  scans.foldl (fun acc s => (count_devices filter s acc).2.1) m

/-- All records processed across a sequence of cycles, in order. -/
def processedStream (scans : List ScanData) : List DiscoveredNetwork :=
  (scans.map processedRecords).flatten

/-- The registry effect of one record: update when it passes the filter,
leave the registry alone otherwise. -/
def aggStep (filter : MacFilter) (m : Registry) (r : DiscoveredNetwork) : Registry :=
  if macMatch filter r then registryUpdate m r.bssidStr r.rssi else m

/-- Specification-side notion: the most recent observation in `rs` that passes
the filter and carries hardware-address string `key` (later records are more
recent). -/
def lastPassingObs (filter : MacFilter) (key : String) :
    List DiscoveredNetwork → Option DiscoveredNetwork
  | [] => none
  | r :: rest =>
      match lastPassingObs filter key rest with
      | some x => some x
      | none => if macMatch filter r && r.bssidStr == key then some r else none

/-- Number of registry entries stored under `key`. -/
def countKey (m : Registry) (key : String) : Nat :=
  (m.map Prod.fst).count key

/-- `const uint8_t LED_PINS[] = {32, 33, 25}`. -/
def LED_PINS : List Nat := [32, 33, 25]

/-- `const uint8_t NUM_PINS = 3`. -/
def NUM_PINS : Nat := 3

/-- `const bool DISP_LEDS = true`. -/
def DISP_LEDS : Bool := true

/-- `const bool DISP_OLED = true`. -/
def DISP_OLED : Bool := true

/-- State of the OLED collaborator: the draw calls buffered since the last
`clear()`, and the frame committed by the last `display()`. -/
structure DisplayState where
  buffer : List (Nat × Nat × Nat × String)
  frame : List (Nat × Nat × Nat × String)
  deriving DecidableEq, Repr

/-- `display.clear()`: drop all buffered content. -/
def displayClear (d : DisplayState) : DisplayState :=
  { d with buffer := [] }

/-- `display.drawStringMaxWidth(x, y, w, text)`: buffer one draw call. -/
def displayDraw (d : DisplayState) (x y w : Nat) (text : String) : DisplayState :=
  { d with buffer := d.buffer ++ [(x, y, w, text)] }

/-- `display.display()`: commit the buffered content as the visible frame. -/
def displayCommit (d : DisplayState) : DisplayState :=
  { d with frame := d.buffer }

/-- One call issued to the OLED display driver. -/
inductive DisplayOp where
  | clear : DisplayOp
  | drawStringMaxWidth : Nat → Nat → Nat → String → DisplayOp
  | commit : DisplayOp
  deriving DecidableEq, Repr

/-- Observable output state on both channels: lamp line levels (by pin number,
`true` = HIGH) and the display collaborator state. -/
structure OutputState where
  pins : Nat → Bool
  disp : DisplayState

/-- `digitalWrite(pin, level)` on the lamp output state. -/
def digitalWrite (pins : Nat → Bool) (pin : Nat) (level : Bool) : Nat → Bool :=
  fun p => if p = pin then level else pins p

/-- The LED loop of lines 132-141, iterating over the remaining pin indices:
`if (i < count) digitalWrite(LED_PINS[i], HIGH); else digitalWrite(LED_PINS[i], LOW);`. -/
def ledLoop (count : Nat) : List Nat → (Nat → Bool) → Nat → Bool
  | [], pins => pins
  | i :: rest, pins =>
      if i < count then ledLoop count rest (digitalWrite pins (LED_PINS.getD i 0) true)
      else ledLoop count rest (digitalWrite pins (LED_PINS.getD i 0) false)

/-- Lamp state after the full LED loop `for (uint8_t i = 0; i < NUM_PINS; i++)`. -/
def ledWrites (count : Nat) (pins : Nat → Bool) : Nat → Bool :=
  ledLoop count (List.range NUM_PINS) pins

/-- The sentence rendered on the display:
`"Found " + String(count) + " devices that passed the filter."`. -/
def dispText (count : Nat) : String :=
  "Found " ++ toString count ++ " devices that passed the filter."

/-- `disp_count` (lines 129-155): drive the lamp lines (if `DISP_LEDS`) and
the OLED (if `DISP_OLED`, via `clear`, `drawStringMaxWidth(0, 8, 128, …)`,
`display`).  Returns the new output state together with the trace of calls
issued to the display driver, in order. -/
def disp_count (count : Nat) (s : OutputState) : OutputState × List DisplayOp :=
  let s1 := if DISP_LEDS then { s with pins := ledWrites count s.pins } else s
  if DISP_OLED then
    let d1 := displayClear s1.disp
    let d2 := displayDraw d1 0 8 128 (dispText count)
    let d3 := displayCommit d2
    ({ s1 with disp := d3 },
      [DisplayOp.clear, DisplayOp.drawStringMaxWidth 0 8 128 (dispText count),
        DisplayOp.commit])
  else (s1, [])

/-- Output state right after `setup()`: all configured pins written LOW and
nothing drawn yet (modelled as all pins low, empty display). -/
def initialOutputState : OutputState :=
  ⟨fun _ => false, ⟨[], []⟩⟩

/-! ### Sample inputs used by the instantiation theorems -/

/-- A filter-passing record with RSSI −40 (Scenario B). -/
def sampleA : DiscoveredNetwork :=
  ⟨"netA", -40, ⟨0x00, 0x0D, 0x97, 0x01, 0x02, 0x03⟩, "00:0D:97:01:02:03"⟩

/-- A filter-passing record with RSSI −70 (Scenario B). -/
def sampleB : DiscoveredNetwork :=
  ⟨"netB", -70, ⟨0x00, 0x0D, 0x97, 0x04, 0x05, 0x06⟩, "00:0D:97:04:05:06"⟩

/-- A record whose address does not match the filter (Scenario D). -/
def sampleOther : DiscoveredNetwork :=
  ⟨"other", -50, ⟨0x11, 0x22, 0x33, 0x04, 0x05, 0x06⟩, "11:22:33:04:05:06"⟩

/-- A scan cycle observing the three sample records. -/
def sampleScan : ScanData := ⟨3, [sampleA, sampleB, sampleOther]⟩

/-- A later cycle observing `sampleA` again at RSSI −55 (Scenario C). -/
def sampleScan2 : ScanData := ⟨1, [{ sampleA with rssi := -55 }]⟩

/-! ### Association-list lemmas for the registry operations -/

theorem mapFind_append_self {m : Registry} {key : String} (h : mapFind m key = none)
    (v : Int) : mapFind (m ++ [(key, v)]) key = some v := by
  induction m with
  | nil => simp [mapFind]
  | cons e rest ih =>
      obtain ⟨k, w⟩ := e
      by_cases hk : k = key
      · simp [mapFind, hk] at h
      · simp only [mapFind, hk, if_neg, List.cons_append] at h ⊢
        exact ih h

theorem mapFind_append_other {m : Registry} {key k2 : String} (h : k2 ≠ key) (v : Int) :
    mapFind (m ++ [(k2, v)]) key = mapFind m key := by
  induction m with
  | nil => simp [mapFind, h]
  | cons e rest ih =>
      obtain ⟨k, w⟩ := e
      by_cases hk : k = key
      · simp [mapFind, hk]
      · simpa [mapFind, hk] using ih

theorem mapAssign_of_find_none {m : Registry} {key : String} (h : mapFind m key = none)
    (v : Int) : mapAssign m key v = m := by
  induction m with
  | nil => rfl
  | cons e rest ih =>
      obtain ⟨k, w⟩ := e
      by_cases hk : k = key
      · simp [mapFind, hk] at h
      · simp only [mapFind, hk, if_neg] at h
        simp [mapAssign, hk, ih h]

theorem mapAssign_find_self {m : Registry} {key : String} {w : Int}
    (h : mapFind m key = some w) (v : Int) :
    mapFind (mapAssign m key v) key = some v := by
  induction m with
  | nil => simp [mapFind] at h
  | cons e rest ih =>
      obtain ⟨k, u⟩ := e
      by_cases hk : k = key
      · simp [mapAssign, mapFind, hk]
      · simp only [mapFind, hk, if_neg] at h
        simp [mapAssign, mapFind, hk, ih h]

theorem mapAssign_find_other {m : Registry} {key k2 : String} (h : k2 ≠ key) (v : Int) :
    mapFind (mapAssign m k2 v) key = mapFind m key := by
  induction m with
  | nil => rfl
  | cons e rest ih =>
      obtain ⟨k, u⟩ := e
      by_cases hk : k = k2
      · subst hk
        simp [mapAssign, mapFind, h]
      · by_cases hk2 : k = key
        · subst hk2
          simp [mapAssign, mapFind, hk]
        · simp [mapAssign, mapFind, hk, hk2, ih]

theorem mapAssign_keys (m : Registry) (key : String) (v : Int) :
    (mapAssign m key v).map Prod.fst = m.map Prod.fst := by
  induction m with
  | nil => rfl
  | cons e rest ih =>
      obtain ⟨k, u⟩ := e
      by_cases hk : k = key
      · simp [mapAssign, hk]
      · simp [mapAssign, hk, ih]

theorem registryUpdate_find_self (m : Registry) (key : String) (rssi : Int) :
    mapFind (registryUpdate m key rssi) key = some |rssi| := by
  unfold registryUpdate
  cases h : mapFind m key with
  | none =>
      simp only [mapInsert, h]
      exact mapFind_append_self h _
  | some v =>
      by_cases hv : v = |rssi|
      · simp [hv, mapInsert, h]
      · simp only [Ne, hv, not_false_iff, if_true]
        exact mapAssign_find_self h _

theorem registryUpdate_find_other {key k2 : String} (m : Registry) (h : k2 ≠ key)
    (rssi : Int) : mapFind (registryUpdate m k2 rssi) key = mapFind m key := by
  unfold registryUpdate
  cases hf : mapFind m k2 with
  | none =>
      simp only [mapInsert, hf]
      exact mapFind_append_other h _
  | some v =>
      by_cases hv : v = |rssi|
      · simp [hv, mapInsert, hf]
      · simp only [Ne, hv, not_false_iff, if_true]
        exact mapAssign_find_other h _

theorem mapFind_eq_none_iff (m : Registry) (key : String) :
    mapFind m key = none ↔ key ∉ m.map Prod.fst := by
  induction m with
  | nil => simp [mapFind]
  | cons e rest ih =>
      obtain ⟨k, v⟩ := e
      by_cases hk : k = key
      · simp [mapFind, hk]
      · simp [mapFind, hk, ih, Ne.symm hk]

theorem countKey_mapAssign (m : Registry) (k2 key : String) (v : Int) :
    countKey (mapAssign m k2 v) key = countKey m key := by
  unfold countKey
  rw [mapAssign_keys]

theorem countKey_append_self (m : Registry) (key : String) (v : Int) :
    countKey (m ++ [(key, v)]) key = countKey m key + 1 := by
  simp [countKey]

theorem countKey_append_other {k2 key : String} (m : Registry) (h : k2 ≠ key) (v : Int) :
    countKey (m ++ [(k2, v)]) key = countKey m key := by
  simp [countKey, List.count_cons, h]

theorem countKey_eq_zero_iff (m : Registry) (key : String) :
    countKey m key = 0 ↔ mapFind m key = none := by
  rw [countKey, List.count_eq_zero, mapFind_eq_none_iff]

theorem registryUpdate_countKey_self (m : Registry) (key : String) (rssi : Int) :
    countKey (registryUpdate m key rssi) key =
      if countKey m key = 0 then 1 else countKey m key := by
  unfold registryUpdate
  by_cases h0 : countKey m key = 0
  · have hf : mapFind m key = none := (countKey_eq_zero_iff m key).mp h0
    simp only [hf, mapInsert, h0, if_true]
    rw [countKey_append_self, h0]
  · have hf : mapFind m key ≠ none := fun h => h0 ((countKey_eq_zero_iff m key).mpr h)
    obtain ⟨v, hv⟩ := Option.ne_none_iff_exists.mp hf
    rw [← hv]
    simp only [h0, if_neg]
    by_cases hveq : v = |rssi|
    · simp [hveq, mapInsert, ← hv]
    · simp only [Ne, hveq, not_false_iff, if_true]
      simp [countKey_mapAssign]

theorem registryUpdate_countKey_other {k2 key : String} (m : Registry) (h : k2 ≠ key)
    (rssi : Int) : countKey (registryUpdate m k2 rssi) key = countKey m key := by
  unfold registryUpdate
  cases hf : mapFind m k2 with
  | none =>
      simp only [mapInsert, hf]
      exact countKey_append_other m h _
  | some v =>
      by_cases hveq : v = |rssi|
      · simp [hveq, mapInsert, hf]
      · simp only [Ne, hveq, not_false_iff, if_true]
        exact countKey_mapAssign m k2 key _

theorem mem_mapAssign {m : Registry} {key : String} {v : Int} {e : String × Int}
    (he : e ∈ mapAssign m key v) : e ∈ m ∨ e.2 = v := by
  induction m with
  | nil => simp [mapAssign] at he
  | cons p rest ih =>
      obtain ⟨k, w⟩ := p
      by_cases hk : k = key
      · simp only [mapAssign, hk, if_true] at he
        rcases List.mem_cons.mp he with h | h
        · right; rw [h]
        · left; exact List.mem_cons_of_mem _ h
      · simp only [mapAssign, hk, if_neg] at he
        rcases List.mem_cons.mp he with h | h
        · left; exact List.mem_cons.mpr (Or.inl h)
        · rcases ih h with h2 | h2
          · left; exact List.mem_cons_of_mem _ h2
          · right; exact h2

theorem registryUpdate_nonneg {m : Registry} (hm : ∀ e ∈ m, 0 ≤ e.2) (key : String)
    (rssi : Int) : ∀ e ∈ registryUpdate m key rssi, 0 ≤ e.2 := by
  intro e he
  unfold registryUpdate at he
  have habs : (0 : Int) ≤ |rssi| := abs_nonneg rssi
  cases hf : mapFind m key with
  | none =>
      rw [hf] at he
      simp only [mapInsert, hf] at he
      rcases List.mem_append.mp he with h | h
      · exact hm e h
      · simp only [List.mem_singleton] at h
        rw [h]
        exact habs
  | some v =>
      rw [hf] at he
      by_cases hveq : v = |rssi|
      · simp only [hveq, ne_eq, not_true_eq_false, if_false, mapInsert, hf] at he
        exact hm e he
      · simp only [Ne, hveq, not_false_iff, if_true] at he
        rcases mem_mapAssign he with h | h
        · exact hm e h
        · rw [h]; exact habs

theorem registryUpdate_keys (m : Registry) (key : String) (rssi : Int) :
    ∃ ext, (registryUpdate m key rssi).map Prod.fst = m.map Prod.fst ++ ext := by
  unfold registryUpdate
  cases hf : mapFind m key with
  | none =>
      refine ⟨[key], ?_⟩
      simp [mapInsert, hf]
  | some v =>
      by_cases hveq : v = |rssi|
      · exact ⟨[], by simp [hveq, mapInsert, hf]⟩
      · refine ⟨[], ?_⟩
        simp only [Ne, hveq, not_false_iff, if_true]
        simp [mapAssign_keys]

/-! ### Bridging the scan loop to a fold over the processed records -/

theorem processRecords_registry (filter : MacFilter) (rs : List DiscoveredNetwork) :
    ∀ (i : Nat) (m : Registry),
      (processRecords filter rs i m).2.1 = rs.foldl (aggStep filter) m := by
  induction rs with
  | nil => intro i m; rfl
  | cons r rest ih =>
      intro i m
      by_cases hm : macMatch filter r = true
      · simp [processRecords, hm, ih, List.foldl_cons, aggStep]
      · simp [processRecords, hm, ih, List.foldl_cons, aggStep]

theorem processRecords_count (filter : MacFilter) (rs : List DiscoveredNetwork) :
    ∀ (i : Nat) (m : Registry),
      (processRecords filter rs i m).1 = (rs.filter (macMatch filter)).length := by
  induction rs with
  | nil => intro i m; rfl
  | cons r rest ih =>
      intro i m
      by_cases hm : macMatch filter r = true
      · simp [processRecords, hm, ih, List.filter_cons]
      · simp [processRecords, hm, ih, List.filter_cons]

theorem count_devices_registry (filter : MacFilter) (scan : ScanData) (m : Registry) :
    (count_devices filter scan m).2.1 = (processedRecords scan).foldl (aggStep filter) m := by
  unfold count_devices
  by_cases h0 : scan.scanResults = 0
  · simp only [h0, if_true]
    have : processedRecords scan = [] := by
      unfold processedRecords
      rw [h0]
      rfl
    rw [this]
    rfl
  · simp only [h0, if_neg, not_false_iff]
    exact processRecords_registry filter (processedRecords scan) 0 m

theorem runCycles_eq (filter : MacFilter) (scans : List ScanData) :
    ∀ m : Registry,
      runCycles filter scans m = (processedStream scans).foldl (aggStep filter) m := by
  induction scans with
  | nil => intro m; rfl
  | cons s rest ih =>
      intro m
      show runCycles filter rest ((count_devices filter s m).2.1) = _
      rw [ih, count_devices_registry]
      unfold processedStream
      rw [List.map_cons, List.flatten_cons, List.foldl_append]

/-! ### Fold-level registry invariants -/

theorem foldl_aggStep_find (filter : MacFilter) (key : String)
    (rs : List DiscoveredNetwork) :
    ∀ m : Registry,
      mapFind (rs.foldl (aggStep filter) m) key =
        match lastPassingObs filter key rs with
        | some r => some |r.rssi|
        | none => mapFind m key := by
  induction rs with
  | nil => intro m; rfl
  | cons r rest ih =>
      intro m
      rw [List.foldl_cons, ih]
      cases hrest : lastPassingObs filter key rest with
      | some x => simp [lastPassingObs, hrest]
      | none =>
          simp only [lastPassingObs, hrest]
          by_cases hm : macMatch filter r = true
          · by_cases hk : r.bssidStr = key
            · simp only [aggStep, hm, if_true, hk, beq_self_eq_true, Bool.and_true]
              exact registryUpdate_find_self m key r.rssi
            · have hbeq : (r.bssidStr == key) = false := beq_eq_false_iff_ne.mpr hk
              simp only [aggStep, hm, if_true, hbeq, Bool.and_false, Bool.false_eq_true,
                if_false]
              exact registryUpdate_find_other m hk r.rssi
          · simp only [aggStep, hm, if_false, Bool.false_and, Bool.false_eq_true]

theorem foldl_aggStep_countKey_le_one (filter : MacFilter) (key : String)
    (rs : List DiscoveredNetwork) :
    ∀ m : Registry, countKey m key ≤ 1 →
      countKey (rs.foldl (aggStep filter) m) key ≤ 1 := by
  induction rs with
  | nil => intro m hm; exact hm
  | cons r rest ih =>
      intro m hm
      rw [List.foldl_cons]
      refine ih _ ?_
      unfold aggStep
      by_cases hmatch : macMatch filter r = true
      · simp only [hmatch, if_true]
        by_cases hk : r.bssidStr = key
        · rw [hk, registryUpdate_countKey_self]
          by_cases h0 : countKey m key = 0
          · simp [h0]
          · simp [h0, hm]
        · rw [registryUpdate_countKey_other m hk]
          exact hm
      · simp only [hmatch, if_false, Bool.false_eq_true]
        exact hm

theorem foldl_aggStep_nonneg (filter : MacFilter) (rs : List DiscoveredNetwork) :
    ∀ m : Registry, (∀ e ∈ m, 0 ≤ e.2) →
      ∀ e ∈ rs.foldl (aggStep filter) m, 0 ≤ e.2 := by
  induction rs with
  | nil => intro m hm; exact hm
  | cons r rest ih =>
      intro m hm
      rw [List.foldl_cons]
      refine ih _ ?_
      unfold aggStep
      by_cases hmatch : macMatch filter r = true
      · simp only [hmatch, if_true]
        exact registryUpdate_nonneg hm _ _
      · simp only [hmatch, if_false, Bool.false_eq_true]
        exact hm

theorem foldl_aggStep_keys (filter : MacFilter) (rs : List DiscoveredNetwork) :
    ∀ m : Registry,
      ∃ ext, (rs.foldl (aggStep filter) m).map Prod.fst = m.map Prod.fst ++ ext := by
  induction rs with
  | nil => intro m; exact ⟨[], by simp⟩
  | cons r rest ih =>
      intro m
      rw [List.foldl_cons]
      obtain ⟨ext1, h1⟩ := ih (aggStep filter m r)
      unfold aggStep at h1 ⊢
      by_cases hmatch : macMatch filter r = true
      · simp only [hmatch, if_true] at h1
        obtain ⟨ext0, h0⟩ := registryUpdate_keys m r.bssidStr r.rssi
        refine ⟨ext0 ++ ext1, ?_⟩
        simp only [hmatch, if_true]
        rw [h1, h0, List.append_assoc]
      · simp only [hmatch, if_false, Bool.false_eq_true] at h1 ⊢
        exact ⟨ext1, h1⟩

theorem foldl_aggStep_find_untouched (filter : MacFilter) (key : String)
    (rs : List DiscoveredNetwork)
    (hkey : ∀ r ∈ rs, macMatch filter r = true → r.bssidStr ≠ key) :
    ∀ m : Registry, mapFind (rs.foldl (aggStep filter) m) key = mapFind m key := by
  induction rs with
  | nil => intro m; rfl
  | cons r rest ih =>
      intro m
      rw [List.foldl_cons]
      have hrest : ∀ x ∈ rest, macMatch filter x = true → x.bssidStr ≠ key :=
        fun x hx => hkey x (List.mem_cons_of_mem _ hx)
      rw [ih hrest]
      unfold aggStep
      by_cases hmatch : macMatch filter r = true
      · simp only [hmatch, if_true]
        exact registryUpdate_find_other m (hkey r (List.mem_cons_self _ _) hmatch) r.rssi
      · simp [hmatch]

/-! ### The cycle count -/

theorem count_devices_count_eq (filter : MacFilter) (scan : ScanData) (m : Registry)
    (hlen : scan.scanResults = scan.records.length) (hr : scan.scanResults < 32768) :
    (count_devices filter scan m).1 = (scan.records.filter (macMatch filter)).length := by
  have hlen2 : scan.records.length < 32768 := by
    rw [hlen] at hr
    exact_mod_cast hr
  have htake : processedRecords scan = scan.records := by
    unfold processedRecords
    rw [hlen, Int.toNat_natCast, List.take_length]
  by_cases h0 : scan.scanResults = 0
  · have hnil : scan.records = [] := by
      rw [h0] at hlen
      exact List.eq_nil_of_length_eq_zero (by exact_mod_cast hlen.symm)
    simp [count_devices, h0, hnil]
  · unfold count_devices
    rw [if_neg h0]
    show (processRecords filter (processedRecords scan) 0 m).1 % 65536 = _
    rw [processRecords_count, htake]
    exact Nat.mod_eq_of_lt
      (lt_of_le_of_lt (List.length_filter_le _ _) (by omega))

/-! ### The lamp loop -/

theorem ledLoop_cons (count i : Nat) (rest : List Nat) (pins : Nat → Bool) :
    ledLoop count (i :: rest) pins =
      ledLoop count rest (digitalWrite pins (LED_PINS.getD i 0) (decide (i < count))) := by
  by_cases h : i < count
  · simp [ledLoop, h]
  · simp [ledLoop, h]

theorem ledWrites_apply (count : Nat) (pins : Nat → Bool) (p : Nat) :
    ledWrites count pins p =
      if p = 25 then decide (2 < count)
      else if p = 33 then decide (1 < count)
      else if p = 32 then decide (0 < count)
      else pins p := by
  show ledLoop count (List.range NUM_PINS) pins p = _
  have hr : List.range NUM_PINS = [0, 1, 2] := rfl
  rw [hr, ledLoop_cons, ledLoop_cons, ledLoop_cons]
  show digitalWrite (digitalWrite (digitalWrite pins 32 (decide (0 < count))) 33
      (decide (1 < count))) 25 (decide (2 < count)) p = _
  by_cases h25 : p = 25
  · simp [digitalWrite, h25]
  · by_cases h33 : p = 33
    · simp [digitalWrite, h25, h33]
    · by_cases h32 : p = 32
      · simp [digitalWrite, h25, h33, h32]
      · simp [digitalWrite, h25, h33, h32]

theorem ledWrites_idem (count : Nat) (pins : Nat → Bool) :
    ledWrites count (ledWrites count pins) = ledWrites count pins := by
  funext p
  rw [ledWrites_apply, ledWrites_apply]
  by_cases h25 : p = 25
  · simp [h25]
  · by_cases h33 : p = 33
    · simp [h25, h33]
    · by_cases h32 : p = 32
      · simp [h25, h33, h32]
      · simp [ledWrites_apply, h25, h33, h32]

theorem disp_count_pins (count : Nat) (s : OutputState) :
    (disp_count count s).1.pins = ledWrites count s.pins := rfl

theorem disp_count_state (count : Nat) (s : OutputState) :
    (disp_count count s).1 =
      ⟨ledWrites count s.pins,
        ⟨[(0, 8, 128, dispText count)], [(0, 8, 128, dispText count)]⟩⟩ := rfl

theorem macMatch_eq_decide (filter : MacFilter) (r : DiscoveredNetwork) :
    macMatch filter r =
      decide (r.bssid.o0 = filter.b0 ∧ r.bssid.o1 = filter.b1 ∧ r.bssid.o2 = filter.b2) := by
  by_cases h0 : r.bssid.o0 = filter.b0 <;>
    by_cases h1 : r.bssid.o1 = filter.b1 <;>
      by_cases h2 : r.bssid.o2 = filter.b2 <;>
        simp [macMatch, h0, h1, h2]

/-! ### The claims -/

/-- C1: a scan record is counted toward the cycle count returned by
`count_devices` iff the first three octets of its hardware address equal the
configured filter octet-for-octet — the count is exactly the number of records
whose three leading octets all equal the filter's, and the filter test holds
iff that exact octet equality holds (no partial or wildcard matching). -/
theorem count_devices_counts_iff_octets (filter : MacFilter) (scan : ScanData)
    (m : Registry) (hlen : scan.scanResults = scan.records.length)
    (hr : scan.scanResults < 32768) :
    (∀ r : DiscoveredNetwork, macMatch filter r = true ↔
      (r.bssid.o0 = filter.b0 ∧ r.bssid.o1 = filter.b1 ∧ r.bssid.o2 = filter.b2)) ∧
    (count_devices filter scan m).1 =
      (scan.records.filter (fun r =>
        decide (r.bssid.o0 = filter.b0 ∧ r.bssid.o1 = filter.b1 ∧
          r.bssid.o2 = filter.b2))).length := by
  constructor
  · intro r
    rw [macMatch_eq_decide]
    exact decide_eq_true_iff
  · have hfun : (fun r : DiscoveredNetwork =>
        decide (r.bssid.o0 = filter.b0 ∧ r.bssid.o1 = filter.b1 ∧
          r.bssid.o2 = filter.b2)) = macMatch filter :=
      funext fun r => (macMatch_eq_decide filter r).symm
    rw [hfun]
    exact count_devices_count_eq filter scan m hlen hr

/-- C2: the count returned by `count_devices` equals the number of records of
the current scan passing the filter, and it does not depend on the prior
contents of the device registry (it is recomputed from the scan result, not
derived from the registry). -/
theorem count_devices_count_consistency (filter : MacFilter) (scan : ScanData)
    (m m2 : Registry) (hlen : scan.scanResults = scan.records.length)
    (hr : scan.scanResults < 32768) :
    (count_devices filter scan m).1 = (scan.records.filter (macMatch filter)).length ∧
    (count_devices filter scan m).1 = (count_devices filter scan m2).1 := by
  refine ⟨count_devices_count_eq filter scan m hlen hr, ?_⟩
  rw [count_devices_count_eq filter scan m hlen hr,
    count_devices_count_eq filter scan m2 hlen hr]

/-- C3: starting from the empty registry, after any sequence of
`count_devices` cycles, every address that passed the filter in some cycle has
exactly one registry entry, whose stored value is the absolute value of the
signal strength of the most recent filter-passing observation of that address
(the overwrite-only-when-different update path still yields the most recent
magnitude, since skipping an equal-value overwrite is a no-op). -/
theorem registry_latest_magnitude (filter : MacFilter) (scans : List ScanData)
    (key : String) (r : DiscoveredNetwork)
    (h : lastPassingObs filter key (processedStream scans) = some r) :
    mapFind (runCycles filter scans []) key = some |r.rssi| ∧
    countKey (runCycles filter scans []) key = 1 := by
  have hfind : mapFind (runCycles filter scans []) key = some |r.rssi| := by
    rw [runCycles_eq, foldl_aggStep_find, h]
  refine ⟨hfind, ?_⟩
  have hle : countKey (runCycles filter scans []) key ≤ 1 := by
    rw [runCycles_eq]
    exact foldl_aggStep_countKey_le_one filter key _ [] (by simp [countKey])
  have hne : countKey (runCycles filter scans []) key ≠ 0 := by
    intro h0
    rw [countKey_eq_zero_iff] at h0
    rw [h0] at hfind
    exact Option.noConfusion hfind
  omega

/-- C4: `count_devices` only inserts or updates registry entries: the key
sequence of the registry after the call extends the prior key sequence (no
entry is ever removed, the registry grows monotonically), every key none of
whose filter-passing observations occur in the current scan keeps exactly its
prior stored value, and every key present before the call is still present
after it. -/
theorem count_devices_registry_frame (filter : MacFilter) (scan : ScanData)
    (m : Registry) :
    (∃ ext, ((count_devices filter scan m).2.1).map Prod.fst = m.map Prod.fst ++ ext) ∧
    (∀ key, (∀ r ∈ processedRecords scan, macMatch filter r = true → r.bssidStr ≠ key) →
      mapFind ((count_devices filter scan m).2.1) key = mapFind m key) ∧
    (∀ key v, mapFind m key = some v →
      ∃ w, mapFind ((count_devices filter scan m).2.1) key = some w) := by
  have hreg := count_devices_registry filter scan m
  obtain ⟨ext, hext⟩ : ∃ ext,
      ((count_devices filter scan m).2.1).map Prod.fst = m.map Prod.fst ++ ext := by
    rw [hreg]
    exact foldl_aggStep_keys filter _ m
  refine ⟨⟨ext, hext⟩, ?_, ?_⟩
  · intro key hkey
    rw [hreg]
    exact foldl_aggStep_find_untouched filter key _ hkey m
  · intro key v hv
    have hmem : key ∈ m.map Prod.fst := by
      by_contra hnot
      rw [← mapFind_eq_none_iff] at hnot
      rw [hnot] at hv
      exact Option.noConfusion hv
    have hmem2 : key ∈ ((count_devices filter scan m).2.1).map Prod.fst := by
      rw [hext]
      exact List.mem_append_left _ hmem
    cases hfind : mapFind ((count_devices filter scan m).2.1) key with
    | none =>
        rw [mapFind_eq_none_iff] at hfind
        exact absurd hmem2 hfind
    | some w => exact ⟨w, rfl⟩

/-- C5: starting from the empty registry, after any sequence of
`count_devices` cycles every value stored in the registry is non-negative:
only the absolute value of the signal strength is ever stored. -/
theorem registry_values_nonneg (filter : MacFilter) (scans : List ScanData)
    (e : String × Int) (he : e ∈ runCycles filter scans []) : 0 ≤ e.2 := by
  rw [runCycles_eq] at he
  exact foldl_aggStep_nonneg filter _ [] (by intro x hx; cases hx) e he

/-- C6: with the lamp channel enabled, `disp_count` drives the configured lamp
lines so that line `j` is active iff `j < min count NUM_PINS` — exactly the
first `min(count, NUM_PINS)` lines are active — and any count of at least
`NUM_PINS` yields the same lamp state as exactly `NUM_PINS`. -/
theorem disp_count_lamp_saturating (count : Nat) (s : OutputState) :
    (∀ j, j < NUM_PINS →
      ((disp_count count s).1.pins (LED_PINS.getD j 0) = true ↔
        j < min count NUM_PINS)) ∧
    (NUM_PINS ≤ count →
      ∀ p, (disp_count count s).1.pins p = (disp_count NUM_PINS s).1.pins p) := by
  constructor
  · intro j hj
    rw [disp_count_pins, ledWrites_apply]
    have hj3 : j < 3 := hj
    interval_cases j
    · simp only [LED_PINS, NUM_PINS, List.getD]
      norm_num
    · simp only [LED_PINS, NUM_PINS, List.getD]
      norm_num
    · simp only [LED_PINS, NUM_PINS, List.getD]
      norm_num
  · intro h p
    have h3 : 3 ≤ count := h
    rw [disp_count_pins, disp_count_pins, ledWrites_apply, ledWrites_apply]
    split_ifs <;> first
      | rfl
      | (rw [decide_eq_decide]; simp only [NUM_PINS]; omega)

/-- C7: `disp_count` is idempotent — applying it twice with the same count
yields the same observable output state (lamp line levels and display state)
as applying it once. -/
theorem disp_count_idempotent (count : Nat) (s : OutputState) :
    (disp_count count (disp_count count s).1).1 = (disp_count count s).1 := by
  simp [disp_count_state, ledWrites_idem]

/-- C8: a scan reporting zero networks is handled as a normal case:
`count_devices` emits the informational note, leaves the registry untouched,
and returns a cycle count of 0. -/
theorem count_devices_empty_scan (filter : MacFilter) (scan : ScanData)
    (m : Registry) (h : scan.scanResults = 0) :
    count_devices filter scan m = (0, m, ["No WiFi devices in AP Mode found"]) := by
  unfold count_devices
  rw [if_pos h]

/-- C9: with the display channel enabled, `disp_count` issues exactly the call
sequence clear, draw the sentence `"Found <count> devices that passed the
filter."` at (0, 8) with max width 128, commit — in that order — and the
committed frame afterwards consists of exactly that sentence, independent of
the prior display content. -/
theorem disp_count_display_sequence (count : Nat) (s : OutputState) :
    (disp_count count s).2 =
      [DisplayOp.clear,
        DisplayOp.drawStringMaxWidth 0 8 128
          ("Found " ++ toString count ++ " devices that passed the filter."),
        DisplayOp.commit] ∧
    (disp_count count s).1.disp.frame =
      [(0, 8, 128, "Found " ++ toString count ++ " devices that passed the filter.")] :=
  ⟨rfl, rfl⟩

/-- C10: when the scan collaborator returns a negative status code,
`count_devices` still returns 0 and leaves the registry unchanged (the loop
body runs zero times); only the diagnostics differ — the `Found N devices.`
line is printed with the negative value instead of the no-devices message. -/
theorem count_devices_negative_status (filter : MacFilter) (scan : ScanData)
    (m : Registry) (h : scan.scanResults < 0) :
    count_devices filter scan m =
      (0, m, ["Found " ++ toString scan.scanResults ++ " devices."]) := by
  have h0 : scan.scanResults ≠ 0 := by omega
  have ht : scan.scanResults.toNat = 0 := Int.toNat_of_nonpos (le_of_lt h)
  unfold count_devices processedRecords
  rw [if_neg h0, ht]
  rfl

/-! ### Instantiations of the hypothesised claims at concrete inputs -/

/-- C1 at the Scenario B/D sample scan: the non-matching record fails the
octet test and the cycle count is the filtered length. -/
theorem count_devices_counts_iff_octets_witness :
    (macMatch MAC_FILTER sampleOther = true ↔
      (sampleOther.bssid.o0 = MAC_FILTER.b0 ∧ sampleOther.bssid.o1 = MAC_FILTER.b1 ∧
        sampleOther.bssid.o2 = MAC_FILTER.b2)) ∧
    (count_devices MAC_FILTER sampleScan []).1 =
      (sampleScan.records.filter (fun r =>
        decide (r.bssid.o0 = MAC_FILTER.b0 ∧ r.bssid.o1 = MAC_FILTER.b1 ∧
          r.bssid.o2 = MAC_FILTER.b2))).length :=
  ⟨(count_devices_counts_iff_octets MAC_FILTER sampleScan [] (by decide) (by decide)).1
      sampleOther,
    (count_devices_counts_iff_octets MAC_FILTER sampleScan [] (by decide) (by decide)).2⟩

/-- C2 at the sample scan, against both the empty registry and a registry
that already contains one of the scanned devices. -/
theorem count_devices_count_consistency_witness :
    (count_devices MAC_FILTER sampleScan []).1 =
      (sampleScan.records.filter (macMatch MAC_FILTER)).length ∧
    (count_devices MAC_FILTER sampleScan []).1 =
      (count_devices MAC_FILTER sampleScan [("00:0D:97:01:02:03", 40)]).1 :=
  count_devices_count_consistency MAC_FILTER sampleScan [] [("00:0D:97:01:02:03", 40)]
    (by decide) (by decide)

/-- C3 for Scenario C: the same device observed at −40 and then −55 ends with
one registry entry holding magnitude 55. -/
theorem registry_latest_magnitude_witness :
    mapFind (runCycles MAC_FILTER [sampleScan, sampleScan2] []) "00:0D:97:01:02:03" =
      some |({ sampleA with rssi := -55 } : DiscoveredNetwork).rssi| ∧
    countKey (runCycles MAC_FILTER [sampleScan, sampleScan2] []) "00:0D:97:01:02:03" = 1 :=
  registry_latest_magnitude MAC_FILTER [sampleScan, sampleScan2] "00:0D:97:01:02:03"
    { sampleA with rssi := -55 } (by decide)

/-- C4 at the sample scan: a pre-existing entry for an address that passes the
filter in no current record keeps its value. -/
theorem count_devices_registry_frame_witness :
    mapFind ((count_devices MAC_FILTER sampleScan [("AA:BB:CC:DD:EE:FF", 7)]).2.1)
        "AA:BB:CC:DD:EE:FF" =
      mapFind [("AA:BB:CC:DD:EE:FF", 7)] "AA:BB:CC:DD:EE:FF" :=
  (count_devices_registry_frame MAC_FILTER sampleScan [("AA:BB:CC:DD:EE:FF", 7)]).2.1
    "AA:BB:CC:DD:EE:FF" (by decide)

/-- C5 at the entry produced by one sample cycle. -/
theorem registry_values_nonneg_witness :
    (0 : Int) ≤ (("00:0D:97:01:02:03", (40 : Int)) : String × Int).2 :=
  registry_values_nonneg MAC_FILTER [sampleScan] ("00:0D:97:01:02:03", 40) (by decide)

/-- C6 at count 5 (> NUM_PINS): the middle line is active and the lamp state
agrees with that of count NUM_PINS. -/
theorem disp_count_lamp_saturating_witness :
    ((disp_count 5 initialOutputState).1.pins (LED_PINS.getD 1 0) = true ↔
      1 < min 5 NUM_PINS) ∧
    (disp_count 5 initialOutputState).1.pins 25 =
      (disp_count NUM_PINS initialOutputState).1.pins 25 :=
  ⟨(disp_count_lamp_saturating 5 initialOutputState).1 1 (by decide),
    (disp_count_lamp_saturating 5 initialOutputState).2 (by decide) 25⟩

/-- C8 at an empty scan with a non-empty prior registry. -/
theorem count_devices_empty_scan_witness :
    count_devices MAC_FILTER ⟨0, []⟩ [("00:0D:97:01:02:03", 40)] =
      (0, [("00:0D:97:01:02:03", 40)], ["No WiFi devices in AP Mode found"]) :=
  count_devices_empty_scan MAC_FILTER ⟨0, []⟩ [("00:0D:97:01:02:03", 40)] rfl

/-- C10 at the `WIFI_SCAN_FAILED`-style status −2 with a non-empty prior
registry. -/
theorem count_devices_negative_status_witness :
    count_devices MAC_FILTER ⟨-2, []⟩ [("00:0D:97:01:02:03", 40)] =
      (0, [("00:0D:97:01:02:03", 40)],
        ["Found " ++ toString (-2 : Int) ++ " devices."]) :=
  count_devices_negative_status MAC_FILTER ⟨-2, []⟩ [("00:0D:97:01:02:03", 40)] (by decide)

end NetFind
